import Mathlib

/-
Shallow embedding of src/doi-processor.ts: the DOI-processing pipeline of the
Kuhnian-classifier labeller. Stateful functions are embedded as explicit
state-passing functions over the cache record; each external HTTP call is
modelled by an oracle value describing the response of that call, and every
function reports how many network calls it performed. Exceptions are embedded
as Except values.
-/

set_option autoImplicit false
set_option linter.unusedVariables false

deriving instance DecidableEq for Except

namespace DoiProc

/-- Bibliographic metadata extracted from a Crossref work record. The title is
represented as an optional string because the extraction expression in the
source can leave it undefined at runtime even though the TypeScript interface
declares it as a plain string; the pdfUrl field is declared optional in the
source. -/
structure DoiMetadata where
  title : Option String
  pdfUrl : Option String
  authors : List String
  journal : String
  year : Option Int
deriving DecidableEq

/-- Classification result returned by the KGX3 service. -/
structure Classification where
  classification : String
  confidence : Option Rat
deriving DecidableEq

/-- One cached record for a DOI. -/
structure CacheEntry where
  doi : String
  metadata : DoiMetadata
  classification : Option Classification
  processedAt : String
deriving DecidableEq

/-- In-memory cache state: the entries record keyed by DOI, the credit
counter and the last-updated timestamp. The entries record is embedded as an
association list with unique keys. -/
structure CacheData where
  entries : List (String × CacheEntry)
  creditsUsed : Nat
  lastUpdated : String
deriving DecidableEq

/-- Configuration loaded from the environment: the credit limit, the KGX3 API
key (the empty string models a missing key, matching the falsiness check of
the source), the contact email and the KGX3 endpoint. -/
structure Config where
  creditLimit : Nat
  apiKey : String
  crossrefEmail : String
  apiUrl : String
deriving DecidableEq

/-- Error values corresponding to the exceptions thrown in the source. -/
inductive PipeError where
  | creditLimit : Nat → PipeError
  | configError : PipeError
  | crossrefHttp : Nat → String → PipeError
  | noWorkData : PipeError
  | kgx3Http : Nat → String → PipeError
  | transport : String → PipeError
deriving DecidableEq

/-- One author object of a Crossref work record. -/
structure AuthorEntry where
  given : Option String
  family : Option String
deriving DecidableEq

/-- One link object of a Crossref work record. -/
structure LinkEntry where
  contentType : String
  url : String
deriving DecidableEq

/-- Shape of the title field of a Crossref work record: an array of strings,
a plain string, or an absent or otherwise falsy value. -/
inductive TitleField where
  | arr : List String → TitleField
  | str : String → TitleField
  | absent : TitleField
deriving DecidableEq

/-- Parsed work record of a successful Crossref response. Option none on the
author and link fields models a missing or non-array field. -/
structure CrossrefWork where
  title : TitleField
  author : Option (List AuthorEntry)
  link : Option (List LinkEntry)
  containerTitle : Option (List String)
  datePartsHead : Option (List Int)
deriving DecidableEq

/-- Oracle describing the outcome of the Crossref HTTP call. -/
inductive CrossrefResponse where
  | ok : Option CrossrefWork → CrossrefResponse
  | httpError : Nat → String → CrossrefResponse
  | transportError : String → CrossrefResponse
deriving DecidableEq

/-- Oracle describing the outcome of the KGX3 HTTP call: a parsed success
body with the classification label and confidence, a non-success status, or
a transport failure. -/
inductive Kgx3Response where
  | ok : String → Option Rat → Kgx3Response
  | httpError : Nat → String → Kgx3Response
  | transportError : String → Kgx3Response
deriving DecidableEq

/-- Lookup of a key in the entries record. -/
def lookupEntry : List (String × CacheEntry) → String → Option CacheEntry
  | [], _ => none
  | (k, v) :: t, d => if k = d then some v else lookupEntry t d

/-- Assignment of a key in the entries record: replaces the value when the
key is present and appends the pair otherwise. -/
def setEntry : List (String × CacheEntry) → String → CacheEntry → List (String × CacheEntry)
  | [], d, v => [(d, v)]
  | (k, w) :: t, d, v => if k = d then (d, v) :: t else (k, w) :: setEntry t d v

/-- The save operation stamps the current time as lastUpdated and writes the
store to disk; write failures are logged and swallowed in the source, so the
only state effect is the timestamp update. -/
def saveCache (c : CacheData) (now : String) : CacheData :=
  { c with lastUpdated := now }

/-- Falsiness of an optional string under JavaScript rules: an undefined
value and the empty string are falsy. -/
def optStrFalsy : Option String → Bool
  | none => true
  | some s => s == ""

/-- Title extraction from a Crossref work: the ternary in the source picks
the first array element when the title field is an array (undefined when the
array is empty) and otherwise coerces a falsy field to the empty string. -/
def extractTitle : TitleField → Option String
  | .arr ts => ts.head?
  | .str s => some s
  | .absent => some ("")

/-- Normalization of a Crossref work record into a metadata record,
mirroring the field extraction in fetchCrossrefMetadata. -/
def extractWorkMetadata (w : CrossrefWork) : DoiMetadata :=
  { title := extractTitle w.title,
    pdfUrl :=
      match w.link with
      | some links =>
        match links.find? (fun l => l.contentType == "application/pdf") with
        | some pdfLink => some pdfLink.url
        | none => none
      | none => none,
    authors :=
      match w.author with
      | some as => as.map (fun a => ((a.given.getD ("")) ++ " " ++ (a.family.getD (""))).trim)
      | none => [],
    journal := (w.containerTitle.bind List.head?).getD (""),
    year :=
      match w.datePartsHead.bind List.head? with
      | some y => if y = 0 then none else some y
      | none => none }

/-- Crossref fetch: one network call whose outcome is given by the response
oracle. A non-success status, a missing work record and a transport failure
all become thrown errors; a work record is normalized into metadata. -/
def fetchCrossrefMetadata (doi : String) (cro : CrossrefResponse) : Except PipeError DoiMetadata :=
  match doi, cro with
  | _, .ok (some w) => .ok (extractWorkMetadata w)
  | _, .ok none => .error .noWorkData
  | _, .httpError s m => .error (.crossrefHttp s m)
  | _, .transportError m => .error (.transport m)

/-- Result of one classifyPaper call: the returned value or thrown error,
the resulting cache state, and the number of network calls performed. -/
structure ClassifyResult where
  res : Except PipeError Classification
  state : CacheData
  netCalls : Nat
deriving DecidableEq

/-- Classification call: checks the credit budget and then the API key
before any network activity, then performs one network call; on success it
increments the credit counter and persists the cache before returning. -/
def classifyPaper (cfg : Config) (ko : Kgx3Response) (now : String) (c : CacheData)
    (title : String) (pdfUrl : Option String) : ClassifyResult :=
  if cfg.creditLimit ≤ c.creditsUsed then
    { res := .error (.creditLimit cfg.creditLimit), state := c, netCalls := 0 }
  else if cfg.apiKey = ("") then
    { res := .error .configError, state := c, netCalls := 0 }
  else
    match ko with
    | .httpError s m => { res := .error (.kgx3Http s m), state := c, netCalls := 1 }
    | .transportError m => { res := .error (.transport m), state := c, netCalls := 1 }
    | .ok label conf =>
      let c1 := saveCache { c with creditsUsed := c.creditsUsed + 1 } now
      { res := .ok { classification := label, confidence := conf }, state := c1, netCalls := 1 }

/-- Badge mapping as typed in the source: exact lookup in the fixed
five-entry table, null for any other input. Property access on the object
literal additionally reaches the truthy members inherited from the object
prototype for their twelve names; that full behavior is modelled separately
by mapClassificationToBadgeJs below, which agrees with this table on every
input outside those names. -/
def mapClassificationToBadge (classification : String) : Option String :=
  if classification = ("Paradigm Shift") then some ("paradigm-shift")
  else if classification = ("Model Revolution") then some ("model-revolution")
  else if classification = ("Normal Science") then some ("normal-science")
  else if classification = ("Model Crisis") then some ("model-crisis")
  else if classification = ("Model Drift") then some ("model-drift")
  else none

/-- Value produced by the badge lookup under full JavaScript semantics: an
own entry of the table (a badge identifier string), a member inherited from
the object prototype (a function, or the prototype object itself for the
proto accessor; all of them truthy, so the or-null fallback passes them
through), or null. -/
inductive BadgeLookup where
  | badge : String → BadgeLookup
  | protoMember : String → BadgeLookup
  | nullValue : BadgeLookup
deriving DecidableEq

/-- Own property names of the object prototype in a standard JavaScript
environment. Indexing a plain object literal with any of these keys walks
the prototype chain and finds the inherited member, and every one of these
members is truthy. -/
def objectProtoKeys : List String :=
  [("constructor"), ("hasOwnProperty"), ("isPrototypeOf"),
    ("propertyIsEnumerable"), ("toLocaleString"), ("toString"), ("valueOf"),
    ("__defineGetter__"), ("__defineSetter__"), ("__lookupGetter__"),
    ("__lookupSetter__"), ("__proto__")]

/-- Badge lookup with full JavaScript property-access semantics: the
indexing expression finds an own entry of the five-label table first,
otherwise walks the prototype chain and yields the truthy inherited member
when the key names one, and otherwise yields undefined, which the or-null
fallback turns into null. -/
def mapClassificationToBadgeJs (classification : String) : BadgeLookup :=
  if classification = ("Paradigm Shift") then .badge ("paradigm-shift")
  else if classification = ("Model Revolution") then .badge ("model-revolution")
  else if classification = ("Normal Science") then .badge ("normal-science")
  else if classification = ("Model Crisis") then .badge ("model-crisis")
  else if classification = ("Model Drift") then .badge ("model-drift")
  else if objectProtoKeys.contains classification then .protoMember classification
  else .nullValue

/-- Result of the body of processDoi before the surrounding catch: the value
or uncaught error, the cache state, the number of network calls and whether
classifyPaper was invoked. -/
structure TryResult where
  res : Except PipeError (Option String)
  state : CacheData
  netCalls : Nat
  classifyInvoked : Bool
deriving DecidableEq

/-- Stage of processDoi after metadata resolution: the title check, the PDF
check, and then the classification call, cache update and badge mapping.
Errors of the classification call are left uncaught here and flow to the
top-level handler. -/
def classifyStage (cfg : Config) (ko : Kgx3Response) (now : String) (c : CacheData)
    (doi : String) (e : CacheEntry) (calls : Nat) : TryResult :=
  if optStrFalsy e.metadata.title then
    { res := .ok none, state := c, netCalls := calls, classifyInvoked := false }
  else if optStrFalsy e.metadata.pdfUrl then
    { res := .ok none, state := c, netCalls := calls, classifyInvoked := false }
  else
    let r := classifyPaper cfg ko now c (e.metadata.title.getD ("")) e.metadata.pdfUrl
    match r.res with
    | .error err =>
      { res := .error err, state := r.state, netCalls := calls + r.netCalls,
        classifyInvoked := true }
    | .ok cl =>
      let e1 : CacheEntry := { e with classification := some cl }
      let c2 := saveCache { r.state with entries := setEntry r.state.entries doi e1 } now
      { res := .ok (mapClassificationToBadge cl.classification), state := c2,
        netCalls := calls + r.netCalls, classifyInvoked := true }

/-- Fresh cache entry created for a doi right after a metadata fetch. -/
def freshEntry (doi : String) (md : DoiMetadata) (now : String) : CacheEntry :=
  { doi := doi, metadata := md, classification := none, processedAt := now }

/-- Body of processDoi (the try block): cache fast path, metadata resolution
with caching and persistence, then the classification stage. -/
def processDoiTry (cfg : Config) (cro : CrossrefResponse) (ko : Kgx3Response)
    (now : String) (c : CacheData) (doi : String) : TryResult :=
  match lookupEntry c.entries doi with
  | some e =>
    match e.classification with
    | some cl =>
      { res := .ok (mapClassificationToBadge cl.classification), state := c,
        netCalls := 0, classifyInvoked := false }
    | none => classifyStage cfg ko now c doi e 0
  | none =>
    match fetchCrossrefMetadata doi cro with
    | .error err =>
      { res := .error err, state := c, netCalls := 1, classifyInvoked := false }
    | .ok md =>
      let e := freshEntry doi md now
      let c1 := saveCache { c with entries := setEntry c.entries doi e } now
      classifyStage cfg ko now c1 doi e 1

/-- Observable outcome of one processDoi call. -/
structure ProcResult where
  badge : Option String
  state : CacheData
  netCalls : Nat
  classifyInvoked : Bool
deriving DecidableEq

/-- Top level of processDoi: every error raised in the body is caught,
logged and mapped to the absence result. -/
def processDoi (cfg : Config) (cro : CrossrefResponse) (ko : Kgx3Response)
    (now : String) (c : CacheData) (doi : String) : ProcResult :=
  let t := processDoiTry cfg cro ko now c doi
  match t.res with
  | .ok b =>
    { badge := b, state := t.state, netCalls := t.netCalls,
      classifyInvoked := t.classifyInvoked }
  | .error _ =>
    { badge := none, state := t.state, netCalls := t.netCalls,
      classifyInvoked := t.classifyInvoked }

/-- Pure read of the cache statistics. -/
structure CacheStats where
  totalEntries : Nat
  creditsUsed : Nat
  creditLimit : Nat
deriving DecidableEq

/-- Statistics accessor of the source, a pure read of the cache state. -/
def getCacheStats (cfg : Config) (c : CacheData) : CacheStats :=
  { totalEntries := c.entries.length, creditsUsed := c.creditsUsed,
    creditLimit := cfg.creditLimit }

/-- One pipeline operation together with the oracle responses and the
timestamp it consumes. -/
inductive PipeOp where
  | procOp : CrossrefResponse → Kgx3Response → String → String → PipeOp
  | classifyOp : Kgx3Response → String → String → Option String → PipeOp
  | saveOp : String → PipeOp
  | statsOp : PipeOp

/-- State effect of one pipeline operation. -/
def stepOp (cfg : Config) (c : CacheData) : PipeOp → CacheData
  | .procOp cro ko now doi => (processDoi cfg cro ko now c doi).state
  | .classifyOp ko now title pdfUrl => (classifyPaper cfg ko now c title pdfUrl).state
  | .saveOp now => saveCache c now
  | .statsOp => c

/-- State after a sequence of pipeline operations. -/
def runOps (cfg : Config) : CacheData → List PipeOp → CacheData
  | c, [] => c
  | c, op :: t => runOps cfg (stepOp cfg c op) t

/-
DOI extraction. The two regular expressions of the source are hand-compiled
into deterministic matchers over character lists: for these patterns every
optional piece is decided by characters that no alternative continuation can
also accept, and the bounded digit quantifier followed by a literal slash
matches exactly when the maximal digit run has length between 4 and 9 and is
followed by a slash, so no backtracking search is needed.
-/

/-- Case-insensitive equality of characters, modelling the i flag. -/
def charIEq (a b : Char) : Bool := a.toLower == b.toLower

/-- Matches a literal pattern case-insensitively at the head of the input
and returns the remaining input on success. -/
def matchLitCI : List Char → List Char → Option (List Char)
  | [], s => some s
  | _ :: _, [] => none
  | p :: pt, c :: ct => if charIEq p c then matchLitCI pt ct else none

/-- Membership in the DOI suffix character class; letters of both cases are
included because the regex carries the i flag. -/
def isSuffixChar (c : Char) : Bool :=
  c == '-' || c == '.' || c == '_' || c == ';' || c == '(' || c == ')' ||
    c == '/' || c == ':' || c.isDigit || c.isAlpha

/-- Attempts to match the bare DOI pattern at the start of the input,
returning the matched text: the literal 10 and dot, four to nine digits, a
slash, and a non-empty maximal run of suffix characters. -/
def matchBareAt (s : List Char) : Option (List Char) :=
  match matchLitCI ['1', '0', '.'] s with
  | none => none
  | some r1 =>
    let ds := r1.takeWhile Char.isDigit
    if 4 ≤ ds.length ∧ ds.length ≤ 9 then
      match r1.drop ds.length with
      | '/' :: r2 =>
        let suf := r2.takeWhile isSuffixChar
        if suf.isEmpty then none
        else some ('1' :: '0' :: '.' :: (ds ++ '/' :: suf))
      | _ => none
    else none

/-- Attempts to match the resolver URL pattern at the start of the input and
returns the captured DOI text: an optional scheme, an optional dx prefix,
the literal host, an optional slash, then the bare DOI pattern as the
capture group. -/
def matchUrlAt (s : List Char) : Option (List Char) :=
  let s1 :=
    match matchLitCI (("https://").data) s with
    | some r => r
    | none =>
      match matchLitCI (("http://").data) s with
      | some r => r
      | none => s
  let s2 :=
    match matchLitCI (("dx.").data) s1 with
    | some r => r
    | none => s1
  match matchLitCI (("doi.org").data) s2 with
  | none => none
  | some s3 =>
    let s4 :=
      match s3 with
      | '/' :: r => r
      | _ => s3
    matchBareAt s4

/-- Scans the text from the left and returns the result of the matcher at
the first position where it fires, mirroring regex exec semantics. -/
def scanText (f : List Char → Option (List Char)) : List Char → Option (List Char)
  | [] => f []
  | c :: t =>
    match f (c :: t) with
    | some r => some r
    | none => scanText f t

/-- DOI extraction: the URL pattern is executed over the whole text first
and the bare pattern only when no URL match exists anywhere; the winning
match is lower-cased. -/
def extractDoi (text : List Char) : Option (List Char) :=
  match scanText matchUrlAt text with
  | some cap => some (cap.map Char.toLower)
  | none =>
    match scanText matchBareAt text with
    | some cap => some (cap.map Char.toLower)
    | none => none

/-
Concrete fixtures used by witnesses and counterexamples.
-/

/-- Configuration with a configured key and a credit limit of two. -/
def cfgA : Config :=
  { creditLimit := 2, apiKey := "key", crossrefEmail := "e", apiUrl := "u" }

/-- Configuration with no API key configured. -/
def cfgNoKey : Config :=
  { creditLimit := 2, apiKey := "", crossrefEmail := "e", apiUrl := "u" }

/-- Metadata with a title and a PDF link. -/
def mdA : DoiMetadata :=
  { title := some ("T"), pdfUrl := some ("u"), authors := [], journal := "J", year := none }

/-- Metadata with a title but no PDF link. -/
def mdNoPdf : DoiMetadata :=
  { title := some ("T"), pdfUrl := none, authors := [], journal := "J", year := none }

/-- Empty cache whose credit counter sits at the limit of cfgA. -/
def cacheAtLimit : CacheData := { entries := [], creditsUsed := 2, lastUpdated := "t" }

/-- Empty cache with no credits used. -/
def cacheFresh : CacheData := { entries := [], creditsUsed := 0, lastUpdated := "t" }

/-- Successful KGX3 response carrying a known label. -/
def koOk : Kgx3Response := .ok ("Normal Science") none

/-- Failing KGX3 response with a non-success status. -/
def koBad : Kgx3Response := .httpError 500 ("ISE")

/-- Failing Crossref response with a non-success status. -/
def croE : CrossrefResponse := .httpError 500 ("ISE")

/-- Classification value with the Normal Science label. -/
def clNS : Classification := { classification := "Normal Science", confidence := none }

/-- Cache entry holding metadata but no classification yet. -/
def entryMetaOnly : CacheEntry :=
  { doi := "10.1/x", metadata := mdA, classification := none, processedAt := "t" }

/-- Cache whose single entry carries metadata only. -/
def cacheWarmMeta : CacheData :=
  { entries := [(("10.1/x"), entryMetaOnly)], creditsUsed := 0, lastUpdated := "t" }

/-- Cache entry that already carries a classification. -/
def entryClassified : CacheEntry :=
  { doi := "10.1/x", metadata := mdA, classification := some clNS, processedAt := "t" }

/-- Cache whose single entry is fully classified. -/
def cacheWarmFull : CacheData :=
  { entries := [(("10.1/x"), entryClassified)], creditsUsed := 1, lastUpdated := "t" }

/-- Cache entry whose metadata has no PDF link. -/
def entryNoPdf : CacheEntry :=
  { doi := "10.1/x", metadata := mdNoPdf, classification := none, processedAt := "t" }

/-- Cache whose single entry has no PDF link and no classification. -/
def cacheNoPdf : CacheData :=
  { entries := [(("10.1/x"), entryNoPdf)], creditsUsed := 1, lastUpdated := "t" }

/-- Crossref work with a one-element title array, no link list and no other
fields. -/
def workT : CrossrefWork :=
  { title := .arr [("T")], author := none, link := none, containerTitle := none,
    datePartsHead := none }

/-- Successful Crossref response carrying workT. -/
def croOkT : CrossrefResponse := .ok (some workT)

/-- Crossref work whose title field is an empty array. -/
def workEmptyTitle : CrossrefWork :=
  { title := .arr [], author := none, link := none, containerTitle := none,
    datePartsHead := none }

/-
Helper lemmas about classifyPaper.
-/

/-- On any error outcome classifyPaper leaves the cache state untouched. -/
theorem classify_state_of_error (cfg : Config) (ko : Kgx3Response) (now : String)
    (c : CacheData) (title : String) (pdfUrl : Option String) (e : PipeError)
    (h : (classifyPaper cfg ko now c title pdfUrl).res = .error e) :
    (classifyPaper cfg ko now c title pdfUrl).state = c := by
  unfold classifyPaper at h ⊢
  by_cases h1 : cfg.creditLimit ≤ c.creditsUsed
  · simp [h1]
  · by_cases h2 : cfg.apiKey = ("")
    · simp [h1, h2]
    · cases ko with
      | httpError s m => simp [h1, h2]
      | transportError m => simp [h1, h2]
      | ok label conf => simp [h1, h2] at h

/-- The classification call never touches the entries record. -/
theorem classify_entries (cfg : Config) (ko : Kgx3Response) (now : String)
    (c : CacheData) (title : String) (pdfUrl : Option String) :
    (classifyPaper cfg ko now c title pdfUrl).state.entries = c.entries := by
  unfold classifyPaper
  by_cases h1 : cfg.creditLimit ≤ c.creditsUsed
  · simp [h1]
  · by_cases h2 : cfg.apiKey = ("")
    · simp [h1, h2]
    · cases ko <;> simp [h1, h2, saveCache]

/-- The classification call either keeps the credit counter or, strictly
below the limit, increments it by exactly one. -/
theorem classify_credits (cfg : Config) (ko : Kgx3Response) (now : String)
    (c : CacheData) (title : String) (pdfUrl : Option String) :
    (classifyPaper cfg ko now c title pdfUrl).state.creditsUsed = c.creditsUsed ∨
      (c.creditsUsed < cfg.creditLimit ∧
        (classifyPaper cfg ko now c title pdfUrl).state.creditsUsed = c.creditsUsed + 1) := by
  unfold classifyPaper
  by_cases h1 : cfg.creditLimit ≤ c.creditsUsed
  · exact Or.inl (by simp [h1])
  · by_cases h2 : cfg.apiKey = ("")
    · exact Or.inl (by simp [h1, h2])
    · cases ko with
      | httpError s m => exact Or.inl (by simp [h1, h2])
      | transportError m => exact Or.inl (by simp [h1, h2])
      | ok label conf =>
        exact Or.inr ⟨Nat.lt_of_not_le h1, by simp [h1, h2, saveCache]⟩

/-- C1: when the credit counter has reached the configured limit,
classifyPaper fails with the credit-limit error before any network call and
leaves the state (in particular the credit counter) unchanged; when the
counter is below the limit but no API key is configured, it fails with the
configuration error before any network call and leaves the state
unchanged. -/
theorem classifyPaper_preconditions (cfg : Config) (ko : Kgx3Response) (now : String)
    (c : CacheData) (title : String) (pdfUrl : Option String) :
    (cfg.creditLimit ≤ c.creditsUsed →
      (classifyPaper cfg ko now c title pdfUrl).res =
          .error (.creditLimit cfg.creditLimit) ∧
        (classifyPaper cfg ko now c title pdfUrl).netCalls = 0 ∧
        (classifyPaper cfg ko now c title pdfUrl).state = c) ∧
      (c.creditsUsed < cfg.creditLimit → cfg.apiKey = ("") →
        (classifyPaper cfg ko now c title pdfUrl).res = .error .configError ∧
          (classifyPaper cfg ko now c title pdfUrl).netCalls = 0 ∧
          (classifyPaper cfg ko now c title pdfUrl).state = c) := by
  constructor
  · intro h
    simp [classifyPaper, h]
  · intro h1 h2
    have h3 : ¬cfg.creditLimit ≤ c.creditsUsed := Nat.not_le.mpr h1
    simp [classifyPaper, h3, h2]

/-- C1 witness: at the limit the credit-limit error is raised with zero
network calls, and below the limit with a missing key the configuration
error is raised with zero network calls. -/
theorem classifyPaper_preconditions_w :
    ((classifyPaper cfgA koOk ("t") cacheAtLimit ("T") (some ("u"))).res =
        .error (.creditLimit 2) ∧
      (classifyPaper cfgA koOk ("t") cacheAtLimit ("T") (some ("u"))).netCalls = 0 ∧
      (classifyPaper cfgA koOk ("t") cacheAtLimit ("T") (some ("u"))).state = cacheAtLimit) ∧
    ((classifyPaper cfgNoKey koOk ("t") cacheFresh ("T") (some ("u"))).res =
        .error .configError ∧
      (classifyPaper cfgNoKey koOk ("t") cacheFresh ("T") (some ("u"))).netCalls = 0 ∧
      (classifyPaper cfgNoKey koOk ("t") cacheFresh ("T") (some ("u"))).state = cacheFresh) :=
  ⟨(classifyPaper_preconditions cfgA koOk ("t") cacheAtLimit ("T") (some ("u"))).1
      (by decide),
    (classifyPaper_preconditions cfgNoKey koOk ("t") cacheFresh ("T") (some ("u"))).2
      (by decide) (by decide)⟩

/-- C10: whenever classifyPaper fails, for any reason, the cache state is
completely unchanged: the credit counter is not incremented and no entry is
added or modified. -/
theorem classifyPaper_error_frame (cfg : Config) (ko : Kgx3Response) (now : String)
    (c : CacheData) (title : String) (pdfUrl : Option String) (e : PipeError)
    (h : (classifyPaper cfg ko now c title pdfUrl).res = .error e) :
    (classifyPaper cfg ko now c title pdfUrl).state = c :=
  classify_state_of_error cfg ko now c title pdfUrl e h

/-- C10 witness: a failing KGX3 call with a non-success status leaves the
warm cache exactly as it was. -/
theorem classifyPaper_error_frame_w :
    (classifyPaper cfgA koBad ("t") cacheWarmMeta ("T") (some ("u"))).state =
      cacheWarmMeta :=
  classifyPaper_error_frame cfgA koBad ("t") cacheWarmMeta ("T") (some ("u"))
    (.kgx3Http 500 ("ISE")) (by decide)

/-- C2: the top-level handler of processDoi converts every error raised in
the body, whatever its kind, into the absence result; no error escapes to
the caller. -/
theorem processDoi_never_throws (cfg : Config) (cro : CrossrefResponse)
    (ko : Kgx3Response) (now : String) (c : CacheData) (doi : String) (e : PipeError)
    (h : (processDoiTry cfg cro ko now c doi).res = .error e) :
    (processDoi cfg cro ko now c doi).badge = none := by
  unfold processDoi
  simp only [h]

/-- C2 witness: a failing Crossref call on a cache miss yields the absence
result rather than an exception. -/
theorem processDoi_never_throws_w :
    (processDoi cfgA croE koOk ("t") cacheFresh ("10.1/x")).badge = none :=
  processDoi_never_throws cfgA croE koOk ("t") cacheFresh ("10.1/x")
    (.crossrefHttp 500 ("ISE")) (by decide)

/-
Helper lemmas about the entries record and the orchestrator.
-/

/-- Looking up the key just assigned returns the assigned value. -/
theorem lookupEntry_setEntry (es : List (String × CacheEntry)) (d : String)
    (v : CacheEntry) : lookupEntry (setEntry es d v) d = some v := by
  induction es with
  | nil => simp [setEntry, lookupEntry]
  | cons p t ih =>
    obtain ⟨k, w⟩ := p
    by_cases hk : k = d
    · simp [setEntry, hk, lookupEntry]
    · simp [setEntry, hk, lookupEntry, ih]

/-- Every key of the record after an assignment is an old key or the
assigned key. -/
theorem setEntry_keys (es : List (String × CacheEntry)) (d : String) (v : CacheEntry) :
    ∀ k ∈ (setEntry es d v).map Prod.fst, k ∈ es.map Prod.fst ∨ k = d := by
  induction es with
  | nil =>
    intro k hk
    simp [setEntry] at hk
    exact Or.inr hk
  | cons p t ih =>
    obtain ⟨k0, w⟩ := p
    intro k hk
    by_cases hk0 : k0 = d
    · simp [setEntry, hk0] at hk
      rcases hk with h | h
      · exact Or.inr h
      · exact Or.inl (by simp [h])
    · simp [setEntry, hk0] at hk
      rcases hk with h | h
      · exact Or.inl (by simp [h])
      · rcases ih k (by simpa using h) with h2 | h2
        · exact Or.inl (by simp; exact Or.inr (by simpa using h2))
        · exact Or.inr h2

/-- The state and call counter of processDoi are those of its body. -/
theorem processDoi_state_eq (cfg : Config) (cro : CrossrefResponse) (ko : Kgx3Response)
    (now : String) (c : CacheData) (doi : String) :
    (processDoi cfg cro ko now c doi).state = (processDoiTry cfg cro ko now c doi).state ∧
      (processDoi cfg cro ko now c doi).netCalls =
        (processDoiTry cfg cro ko now c doi).netCalls := by
  unfold processDoi
  cases h : (processDoiTry cfg cro ko now c doi).res <;> simp [h]

/-- Fully memoized fast path: with a cached classification, processDoi
returns the mapped badge immediately, with zero network calls and no state
change. -/
theorem processDoi_cached (cfg : Config) (cro : CrossrefResponse) (ko : Kgx3Response)
    (now : String) (c : CacheData) (doi : String) (e : CacheEntry) (cl : Classification)
    (h1 : lookupEntry c.entries doi = some e) (h2 : e.classification = some cl) :
    processDoi cfg cro ko now c doi =
      { badge := mapClassificationToBadge cl.classification, state := c,
        netCalls := 0, classifyInvoked := false } := by
  unfold processDoi processDoiTry
  simp only [h1, h2]

/-- If the entry for the doi carries a classification after the metadata
stage ran, the stage succeeded and returned the badge mapped from that
classification. -/
theorem classifyStage_classified_after (cfg : Config) (ko : Kgx3Response) (now : String)
    (c : CacheData) (doi : String) (e0 : CacheEntry) (calls : Nat) (e : CacheEntry)
    (cl : Classification)
    (h0 : lookupEntry c.entries doi = some e0)
    (hn : e0.classification = none)
    (h1 : lookupEntry (classifyStage cfg ko now c doi e0 calls).state.entries doi = some e)
    (h2 : e.classification = some cl) :
    (classifyStage cfg ko now c doi e0 calls).res =
      .ok (mapClassificationToBadge cl.classification) := by
  unfold classifyStage at h1 ⊢
  by_cases ht : optStrFalsy e0.metadata.title = true
  · simp [ht, h0] at h1
    rw [← h1, hn] at h2
    cases h2
  · by_cases hp : optStrFalsy e0.metadata.pdfUrl = true
    · simp [ht, hp, h0] at h1
      rw [← h1, hn] at h2
      cases h2
    · cases hr : (classifyPaper cfg ko now c (e0.metadata.title.getD ("")) e0.metadata.pdfUrl).res with
      | error err =>
        simp [ht, hp, hr, classify_entries, h0] at h1
        rw [← h1, hn] at h2
        cases h2
      | ok cl1 =>
        simp [ht, hp, hr, saveCache, lookupEntry_setEntry] at h1
        simp [ht, hp, hr]
        rw [← h1] at h2
        simp at h2
        rw [h2]

/-- If the entry for the doi carries a classification after the body of
processDoi ran, the body succeeded and returned the badge mapped from that
classification. -/
theorem processDoiTry_classified_after (cfg : Config) (cro : CrossrefResponse)
    (ko : Kgx3Response) (now : String) (c : CacheData) (doi : String) (e : CacheEntry)
    (cl : Classification)
    (h1 : lookupEntry (processDoiTry cfg cro ko now c doi).state.entries doi = some e)
    (h2 : e.classification = some cl) :
    (processDoiTry cfg cro ko now c doi).res =
      .ok (mapClassificationToBadge cl.classification) := by
  unfold processDoiTry at h1 ⊢
  cases hl : lookupEntry c.entries doi with
  | some e0 =>
    cases hc : e0.classification with
    | some cl0 =>
      simp only [hl, hc] at h1 ⊢
      injection h1 with h1
      rw [← h1, hc] at h2
      injection h2 with h2
      rw [h2]
    | none =>
      simp only [hl, hc] at h1 ⊢
      exact classifyStage_classified_after cfg ko now c doi e0 0 e cl hl hc h1 h2
  | none =>
    cases hf : fetchCrossrefMetadata doi cro with
    | error err =>
      simp only [hl, hf] at h1 ⊢
      exact Option.noConfusion h1
    | ok md =>
      simp only [hl, hf] at h1 ⊢
      exact classifyStage_classified_after cfg ko now _ doi _ 1 e cl
        (by simp [saveCache, lookupEntry_setEntry]) rfl h1 h2

/-- If the final state of a processDoi call carries a classified entry for
the doi, the call returned the badge mapped from that classification. -/
theorem processDoi_classified_after (cfg : Config) (cro : CrossrefResponse)
    (ko : Kgx3Response) (now : String) (c : CacheData) (doi : String) (e : CacheEntry)
    (cl : Classification)
    (h1 : lookupEntry (processDoi cfg cro ko now c doi).state.entries doi = some e)
    (h2 : e.classification = some cl) :
    (processDoi cfg cro ko now c doi).badge = mapClassificationToBadge cl.classification := by
  have hs := (processDoi_state_eq cfg cro ko now c doi).1
  rw [hs] at h1
  have hres := processDoiTry_classified_after cfg cro ko now c doi e cl h1 h2
  unfold processDoi
  simp only [hres]

/-- C3 counterexample: with a warm cache entry that carries metadata but no
classification and a classification service answering with a non-success
status, the second of two successive processDoi calls still performs a
network call, refuting the claim that the second call performs zero network
calls for every doi and cache state. -/
theorem processDoi_second_call_not_free :
    ¬((processDoi cfgA croE koBad ("t2")
          (processDoi cfgA croE koBad ("t") cacheWarmMeta ("10.1/x")).state
          ("10.1/x")).netCalls = 0) := by
  decide

/-- C3 amended: when the first call leaves the cache entry for the doi with
a classification attached (the warm-cache situation), the second call
performs zero network calls and returns the same badge result as the first,
whatever responses the oracles would give it. -/
theorem processDoi_idempotent (cfg : Config) (cro : CrossrefResponse) (ko : Kgx3Response)
    (now : String) (c : CacheData) (doi : String) (cro2 : CrossrefResponse)
    (ko2 : Kgx3Response) (now2 : String) (e : CacheEntry) (cl : Classification)
    (h1 : lookupEntry (processDoi cfg cro ko now c doi).state.entries doi = some e)
    (h2 : e.classification = some cl) :
    (processDoi cfg cro2 ko2 now2 (processDoi cfg cro ko now c doi).state doi).netCalls = 0 ∧
      (processDoi cfg cro2 ko2 now2 (processDoi cfg cro ko now c doi).state doi).badge =
        (processDoi cfg cro ko now c doi).badge := by
  have hb := processDoi_classified_after cfg cro ko now c doi e cl h1 h2
  have hf := processDoi_cached cfg cro2 ko2 now2
    (processDoi cfg cro ko now c doi).state doi e cl h1 h2
  rw [hf, hb]
  exact ⟨rfl, rfl⟩

/-- C3 amended witness: on a cache whose entry for the doi is already
classified, the second call performs zero network calls and repeats the
badge of the first. -/
theorem processDoi_idempotent_w :
    (processDoi cfgA croE koOk ("t2")
        (processDoi cfgA croE koOk ("t") cacheWarmFull ("10.1/x")).state
        ("10.1/x")).netCalls = 0 ∧
      (processDoi cfgA croE koOk ("t2")
          (processDoi cfgA croE koOk ("t") cacheWarmFull ("10.1/x")).state
          ("10.1/x")).badge =
        (processDoi cfgA croE koOk ("t") cacheWarmFull ("10.1/x")).badge :=
  processDoi_idempotent cfgA croE koOk ("t") cacheWarmFull ("10.1/x") croE koOk ("t2")
    entryClassified clNS (by decide) (by decide)

/-
Credit counter lemmas for the invariant claim.
-/

/-- The credit effect of the metadata stage mirrors that of the
classification call: unchanged, or incremented by one from strictly below
the limit. -/
theorem classifyStage_credits (cfg : Config) (ko : Kgx3Response) (now : String)
    (c : CacheData) (doi : String) (e0 : CacheEntry) (calls : Nat) :
    (classifyStage cfg ko now c doi e0 calls).state.creditsUsed = c.creditsUsed ∨
      (c.creditsUsed < cfg.creditLimit ∧
        (classifyStage cfg ko now c doi e0 calls).state.creditsUsed = c.creditsUsed + 1) := by
  unfold classifyStage
  by_cases ht : optStrFalsy e0.metadata.title = true
  · exact Or.inl (by simp [ht])
  · by_cases hp : optStrFalsy e0.metadata.pdfUrl = true
    · exact Or.inl (by simp [ht, hp])
    · cases hr : (classifyPaper cfg ko now c (e0.metadata.title.getD ("")) e0.metadata.pdfUrl).res with
      | error err =>
        rcases classify_credits cfg ko now c (e0.metadata.title.getD ("")) e0.metadata.pdfUrl with
          h | h
        · exact Or.inl (by simp [ht, hp, hr, h])
        · exact Or.inr ⟨h.1, by simp [ht, hp, hr, h.2]⟩
      | ok cl1 =>
        rcases classify_credits cfg ko now c (e0.metadata.title.getD ("")) e0.metadata.pdfUrl with
          h | h
        · exact Or.inl (by simp [ht, hp, hr, saveCache, h])
        · exact Or.inr ⟨h.1, by simp [ht, hp, hr, saveCache, h.2]⟩

/-- The credit effect of the body of processDoi. -/
theorem processDoiTry_credits (cfg : Config) (cro : CrossrefResponse) (ko : Kgx3Response)
    (now : String) (c : CacheData) (doi : String) :
    (processDoiTry cfg cro ko now c doi).state.creditsUsed = c.creditsUsed ∨
      (c.creditsUsed < cfg.creditLimit ∧
        (processDoiTry cfg cro ko now c doi).state.creditsUsed = c.creditsUsed + 1) := by
  cases hl : lookupEntry c.entries doi with
  | some e0 =>
    cases hc : e0.classification with
    | some cl0 =>
      refine Or.inl ?_
      unfold processDoiTry
      simp [hl, hc]
    | none =>
      have he : processDoiTry cfg cro ko now c doi = classifyStage cfg ko now c doi e0 0 := by
        unfold processDoiTry
        simp [hl, hc]
      rw [he]
      exact classifyStage_credits cfg ko now c doi e0 0
  | none =>
    cases hf : fetchCrossrefMetadata doi cro with
    | error err =>
      refine Or.inl ?_
      unfold processDoiTry
      simp [hl, hf]
    | ok md =>
      have he : processDoiTry cfg cro ko now c doi =
          classifyStage cfg ko now
            (saveCache { c with entries := setEntry c.entries doi (freshEntry doi md now) } now)
            doi (freshEntry doi md now) 1 := by
        unfold processDoiTry
        simp [hl, hf]
      rw [he]
      have h := classifyStage_credits cfg ko now
        (saveCache { c with entries := setEntry c.entries doi (freshEntry doi md now) } now)
        doi (freshEntry doi md now) 1
      simpa [saveCache] using h

/-- The credit effect of a full processDoi call. -/
theorem processDoi_credits (cfg : Config) (cro : CrossrefResponse) (ko : Kgx3Response)
    (now : String) (c : CacheData) (doi : String) :
    (processDoi cfg cro ko now c doi).state.creditsUsed = c.creditsUsed ∨
      (c.creditsUsed < cfg.creditLimit ∧
        (processDoi cfg cro ko now c doi).state.creditsUsed = c.creditsUsed + 1) := by
  rw [(processDoi_state_eq cfg cro ko now c doi).1]
  exact processDoiTry_credits cfg cro ko now c doi

/-- Arithmetic core of the invariant: a counter that is unchanged or bumped
from strictly below the limit is monotone and stays bounded. -/
theorem credits_step_of_disj (a b limit : Nat)
    (h : b = a ∨ (a < limit ∧ b = a + 1)) : a ≤ b ∧ (a ≤ limit → b ≤ limit) := by
  rcases h with h | ⟨h1, h2⟩
  · exact ⟨le_of_eq h.symm, fun hl => h ▸ hl⟩
  · exact ⟨h2 ▸ Nat.le_succ a, fun _ => h2 ▸ h1⟩

/-- One pipeline operation keeps the counter monotone and bounded. -/
theorem stepOp_credits (cfg : Config) (c : CacheData) (op : PipeOp) :
    c.creditsUsed ≤ (stepOp cfg c op).creditsUsed ∧
      (c.creditsUsed ≤ cfg.creditLimit → (stepOp cfg c op).creditsUsed ≤ cfg.creditLimit) := by
  cases op with
  | procOp cro ko now doi =>
    exact credits_step_of_disj c.creditsUsed _ cfg.creditLimit
      (processDoi_credits cfg cro ko now c doi)
  | classifyOp ko now title pdfUrl =>
    exact credits_step_of_disj c.creditsUsed _ cfg.creditLimit
      (classify_credits cfg ko now c title pdfUrl)
  | saveOp now => exact ⟨le_refl _, id⟩
  | statsOp => exact ⟨le_refl _, id⟩

/-- A sequence of pipeline operations keeps the counter monotone and
bounded. -/
theorem runOps_credits (cfg : Config) (ops : List PipeOp) : ∀ c : CacheData,
    c.creditsUsed ≤ (runOps cfg c ops).creditsUsed ∧
      (c.creditsUsed ≤ cfg.creditLimit → (runOps cfg c ops).creditsUsed ≤ cfg.creditLimit) := by
  induction ops with
  | nil => intro c; exact ⟨le_refl _, id⟩
  | cons op t ih =>
    intro c
    have hs := stepOp_credits cfg c op
    have ht := ih (stepOp cfg c op)
    exact ⟨le_trans hs.1 ht.1, fun h => ht.2 (hs.2 h)⟩

/-- Running a concatenation of operation lists runs them in order. -/
theorem runOps_append (cfg : Config) (ops1 ops2 : List PipeOp) : ∀ c : CacheData,
    runOps cfg c (ops1 ++ ops2) = runOps cfg (runOps cfg c ops1) ops2 := by
  induction ops1 with
  | nil => intro c; rfl
  | cons op t ih => intro c; simp only [List.cons_append, runOps]; exact ih _

/-- C4: starting at or below the configured limit, the credit counter is
monotonically non-decreasing across any sequence of pipeline operations (any
earlier cut point is at most any later one) and never exceeds the limit. -/
theorem creditsUsed_invariant (cfg : Config) (c : CacheData) (ops1 ops2 : List PipeOp)
    (h : c.creditsUsed ≤ cfg.creditLimit) :
    (runOps cfg c ops1).creditsUsed ≤ (runOps cfg c (ops1 ++ ops2)).creditsUsed ∧
      (runOps cfg c (ops1 ++ ops2)).creditsUsed ≤ cfg.creditLimit := by
  rw [runOps_append]
  have h1 := runOps_credits cfg ops1 c
  have h2 := runOps_credits cfg ops2 (runOps cfg c ops1)
  exact ⟨h2.1, h2.2 (h1.2 h)⟩

/-- C4 witness: two classification operations and a save from a fresh cache
respect monotonicity and the bound at a concrete cut point. -/
theorem creditsUsed_invariant_w :
    (runOps cfgA cacheFresh [PipeOp.classifyOp koOk ("t") ("T") (some ("u"))]).creditsUsed ≤
        (runOps cfgA cacheFresh ([PipeOp.classifyOp koOk ("t") ("T") (some ("u"))] ++
          [PipeOp.classifyOp koOk ("t2") ("T") (some ("u")),
            PipeOp.saveOp ("t3")])).creditsUsed ∧
      (runOps cfgA cacheFresh ([PipeOp.classifyOp koOk ("t") ("T") (some ("u"))] ++
          [PipeOp.classifyOp koOk ("t2") ("T") (some ("u")),
            PipeOp.saveOp ("t3")])).creditsUsed ≤ cfgA.creditLimit :=
  creditsUsed_invariant cfgA cacheFresh
    [PipeOp.classifyOp koOk ("t") ("T") (some ("u"))]
    [PipeOp.classifyOp koOk ("t2") ("T") (some ("u")), PipeOp.saveOp ("t3")]
    (by decide)

/-
Credit conservation on the no-PDF path.
-/

/-- A metadata record without a PDF link short-circuits the stage before the
classification call. -/
theorem classifyStage_no_pdf (cfg : Config) (ko : Kgx3Response) (now : String)
    (c : CacheData) (doi : String) (e0 : CacheEntry) (calls : Nat)
    (hp : e0.metadata.pdfUrl = none) :
    classifyStage cfg ko now c doi e0 calls =
      { res := .ok none, state := c, netCalls := calls, classifyInvoked := false } := by
  unfold classifyStage
  by_cases ht : optStrFalsy e0.metadata.title = true
  · simp [ht]
  · simp [ht, hp, optStrFalsy]

/-- C5: for a doi whose resolved metadata, cached or freshly fetched, has no
PDF URL, processDoi returns absence without invoking the classification
client and the credit counter is unchanged by the call. -/
theorem processDoi_no_pdf_conserves (cfg : Config) (cro : CrossrefResponse)
    (ko : Kgx3Response) (now : String) (c : CacheData) (doi : String)
    (h : (∃ e, lookupEntry c.entries doi = some e ∧ e.classification = none ∧
            e.metadata.pdfUrl = none) ∨
          (lookupEntry c.entries doi = none ∧
            ∃ w, cro = .ok (some w) ∧ (extractWorkMetadata w).pdfUrl = none)) :
    (processDoi cfg cro ko now c doi).badge = none ∧
      (processDoi cfg cro ko now c doi).classifyInvoked = false ∧
      (processDoi cfg cro ko now c doi).state.creditsUsed = c.creditsUsed := by
  rcases h with ⟨e, hl, hc, hp⟩ | ⟨hl, w, hw, hp⟩
  · unfold processDoi processDoiTry
    simp only [hl, hc]
    rw [classifyStage_no_pdf cfg ko now c doi e 0 hp]
    simp
  · unfold processDoi processDoiTry
    simp only [hl, hw, fetchCrossrefMetadata]
    rw [classifyStage_no_pdf _ _ _ _ _ _ _ hp]
    simp [saveCache]

/-- C5 witness: a cached metadata-only entry without a PDF link yields
absence, no classification invocation and an unchanged counter. -/
theorem processDoi_no_pdf_conserves_w :
    (processDoi cfgA croE koOk ("t") cacheNoPdf ("10.1/x")).badge = none ∧
      (processDoi cfgA croE koOk ("t") cacheNoPdf ("10.1/x")).classifyInvoked = false ∧
      (processDoi cfgA croE koOk ("t") cacheNoPdf ("10.1/x")).state.creditsUsed =
        cacheNoPdf.creditsUsed :=
  processDoi_no_pdf_conserves cfgA croE koOk ("t") cacheNoPdf ("10.1/x")
    (Or.inl ⟨entryNoPdf, by decide, rfl, rfl⟩)

/-- Off the prototype names, the full JavaScript lookup and the plain table
agree: a badge exactly when the table has one and null exactly when the
table yields none, so the table is exact for every actual classification
label. -/
theorem mapClassificationToBadgeJs_eq_table (s : String)
    (h : objectProtoKeys.contains s = false) :
    mapClassificationToBadgeJs s =
      (match mapClassificationToBadge s with
        | some b => BadgeLookup.badge b
        | none => BadgeLookup.nullValue) := by
  unfold mapClassificationToBadgeJs mapClassificationToBadge
  split_ifs <;> simp_all

/-- C6: under full JavaScript property-access semantics the badge lookup
maps the five labels to their badges, but an input naming an inherited
object-prototype member, such as toString, returns that truthy member
through the or-null fallback instead of null, contradicting the declared
string-or-null return type and the doc comment of the source; null is
produced only for strings outside both the table and the prototype
names. -/
theorem mapClassificationToBadge_proto_chain :
    mapClassificationToBadgeJs ("Model Drift") = .badge ("model-drift") ∧
      mapClassificationToBadgeJs ("toString") = .protoMember ("toString") ∧
      ¬mapClassificationToBadgeJs ("toString") = .nullValue ∧
      mapClassificationToBadgeJs ("constructor") = .protoMember ("constructor") ∧
      mapClassificationToBadgeJs ("Not A Label") = .nullValue ∧
      mapClassificationToBadgeJs ("") = .nullValue ∧
      mapClassificationToBadgeJs ("model drift") = .nullValue := by
  decide

/-
Leftmost-match lemmas for the extractor.
-/

/-- If the matcher fires at a position and at no earlier position, the scan
returns exactly that match. -/
theorem scanText_eq_some (f : List Char → Option (List Char)) :
    ∀ (s : List Char) (i : Nat) (cap : List Char),
      f (s.drop i) = some cap → (∀ k, k < i → f (s.drop k) = none) →
      scanText f s = some cap := by
  intro s
  induction s with
  | nil =>
    intro i cap h1 h2
    rw [List.drop_nil] at h1
    simpa [scanText] using h1
  | cons a t ih =>
    intro i cap h1 h2
    cases i with
    | zero =>
      simp only [List.drop_zero] at h1
      simp [scanText, h1]
    | succ j =>
      have h0 : f (a :: t) = none := by simpa using h2 0 (Nat.succ_pos j)
      have h1' : f (t.drop j) = some cap := by simpa using h1
      have h2' : ∀ k, k < j → f (t.drop k) = none := by
        intro k hk
        have hh := h2 (k + 1) (Nat.succ_lt_succ hk)
        simpa using hh
      simp [scanText, h0]
      exact ih j cap h1' h2'

/-- If the matcher fails at every position up to the length of the text,
the scan returns nothing. -/
theorem scanText_eq_none (f : List Char → Option (List Char)) :
    ∀ s : List Char, (∀ i, i < s.length + 1 → f (s.drop i) = none) →
      scanText f s = none := by
  intro s
  induction s with
  | nil =>
    intro h
    simpa [scanText] using h 0 (by simp)
  | cons a t ih =>
    intro h
    have h0 : f (a :: t) = none := by simpa using h 0 (by simp)
    have ht : ∀ i, i < t.length + 1 → f (t.drop i) = none := by
      intro i hi
      have hh := h (i + 1) (by simpa using Nat.succ_lt_succ hi)
      simpa using hh
    simp [scanText, h0]
    exact ih ht

/-- C7: extraction returns the leftmost resolver URL match of the text,
lower-cased, regardless of any bare DOI occurring at an earlier position;
when no URL match exists anywhere it returns the leftmost bare match
lower-cased; when neither pattern matches anywhere it returns absence. -/
theorem extractDoi_priority (text : List Char) :
    (∀ i cap, matchUrlAt (text.drop i) = some cap →
        (∀ k, k < i → matchUrlAt (text.drop k) = none) →
        extractDoi text = some (cap.map Char.toLower)) ∧
      ((∀ i, i < text.length + 1 → matchUrlAt (text.drop i) = none) →
        ∀ i cap, matchBareAt (text.drop i) = some cap →
          (∀ k, k < i → matchBareAt (text.drop k) = none) →
          extractDoi text = some (cap.map Char.toLower)) ∧
      ((∀ i, i < text.length + 1 → matchUrlAt (text.drop i) = none) →
        (∀ i, i < text.length + 1 → matchBareAt (text.drop i) = none) →
        extractDoi text = none) := by
  refine ⟨?_, ?_, ?_⟩
  · intro i cap h1 h2
    have h := scanText_eq_some matchUrlAt text i cap h1 h2
    unfold extractDoi
    rw [h]
  · intro hu i cap h1 h2
    have hun := scanText_eq_none matchUrlAt text hu
    have hb := scanText_eq_some matchBareAt text i cap h1 h2
    unfold extractDoi
    rw [hun, hb]
  · intro hu hb
    have hun := scanText_eq_none matchUrlAt text hu
    have hbn := scanText_eq_none matchBareAt text hb
    unfold extractDoi
    rw [hun, hbn]

/-- Text with a bare DOI before a resolver URL DOI of different casing. -/
def textUrlW : List Char := ("10.1234/ab doi.org/10.5678/CD").data

/-- Capture of the URL match inside textUrlW, in original casing. -/
def capUrlW : List Char := ("10.5678/CD").data

/-- Text with only a bare DOI. -/
def textBareW : List Char := ("see 10.1111/Ab now").data

/-- Capture of the bare match inside textBareW, in original casing. -/
def capBareW : List Char := ("10.1111/Ab").data

/-- Text with no DOI-shaped substring. -/
def textNoneW : List Char := ("no doi here").data

/-- C7 witness: the URL DOI wins over an earlier bare DOI and is
lower-cased; a lone bare DOI is returned lower-cased; a text without a DOI
yields absence. -/
theorem extractDoi_priority_w :
    extractDoi textUrlW = some (capUrlW.map Char.toLower) ∧
      extractDoi textBareW = some (capBareW.map Char.toLower) ∧
      extractDoi textNoneW = none :=
  ⟨(extractDoi_priority textUrlW).1 11 capUrlW (by decide) (by decide),
    (extractDoi_priority textBareW).2.1 (by decide) 4 capBareW (by decide) (by decide),
    (extractDoi_priority textNoneW).2.2 (by decide) (by decide)⟩

/-- C8: evaluating the metadata extraction at a successful response whose
title field is an empty array produces a metadata record with no title
string at all, where the claim and the declared interface promise a string;
a non-empty array yields its first element and an absent field yields the
empty string. -/
theorem fetchCrossrefMetadata_emptyTitle :
    fetchCrossrefMetadata ("10.1/x") (.ok (some workEmptyTitle)) =
        .ok { title := none, pdfUrl := none, authors := [], journal := "",
              year := none } ∧
      (∀ (s : String) (ts : List String), extractTitle (.arr (s :: ts)) = some s) ∧
      extractTitle .absent = some ("") :=
  ⟨rfl, fun s ts => rfl, rfl⟩

/-
Cache key case-normalization.
-/

/-- A string equal to its own lower-cased form. -/
def isLowercased (s : String) : Bool := s.data.map Char.toLower == s.data

/-- C9 counterexample: processDoi stores its doi argument verbatim, so an
uppercase argument reachable from the empty cache yields a stored key that
differs from its own lowercase form. -/
theorem processDoi_key_not_lowercased :
    ((runOps cfgA cacheFresh [PipeOp.procOp croOkT koOk ("t") ("10.1/AB")]).entries.map
        Prod.fst = [("10.1/AB")]) ∧
      isLowercased ("10.1/AB") = false := by
  decide

/-- The doi argument consumed by an operation, when it has one. -/
def opDoi : PipeOp → Option String
  | .procOp _ _ _ doi => some doi
  | _ => none

/-- Whether the doi argument of an operation, if any, is lowercase. -/
def opDoiLowercase : PipeOp → Bool
  | .procOp _ _ _ doi => isLowercased doi
  | _ => true

/-- A lowercase-marked operation carries a lowercase doi. -/
theorem opDoi_lower (op : PipeOp) (k : String) (h1 : opDoiLowercase op = true)
    (h2 : opDoi op = some k) : isLowercased k = true := by
  cases op with
  | procOp cro ko now doi =>
    simp only [opDoi, Option.some.injEq] at h2
    simp only [opDoiLowercase] at h1
    rw [← h2]
    exact h1
  | classifyOp ko now title pdfUrl => exact Option.noConfusion h2
  | saveOp now => exact Option.noConfusion h2
  | statsOp => exact Option.noConfusion h2

/-- Every key after the metadata stage is an old key or the processed
doi. -/
theorem classifyStage_keys (cfg : Config) (ko : Kgx3Response) (now : String)
    (c : CacheData) (doi : String) (e0 : CacheEntry) (calls : Nat) :
    ∀ k ∈ (classifyStage cfg ko now c doi e0 calls).state.entries.map Prod.fst,
      k ∈ c.entries.map Prod.fst ∨ k = doi := by
  intro k hk
  unfold classifyStage at hk
  by_cases ht : optStrFalsy e0.metadata.title = true
  · simp [ht] at hk
    exact Or.inl (by simpa using hk)
  · by_cases hp : optStrFalsy e0.metadata.pdfUrl = true
    · simp [ht, hp] at hk
      exact Or.inl (by simpa using hk)
    · cases hr : (classifyPaper cfg ko now c (e0.metadata.title.getD ("")) e0.metadata.pdfUrl).res with
      | error err =>
        simp [ht, hp, hr, classify_entries] at hk
        exact Or.inl (by simpa using hk)
      | ok cl1 =>
        simp [ht, hp, hr, saveCache] at hk
        have hks := setEntry_keys
          (classifyPaper cfg ko now c (e0.metadata.title.getD ("")) e0.metadata.pdfUrl).state.entries
          doi { e0 with classification := some cl1 } k (by simpa using hk)
        rcases hks with h | h
        · rw [classify_entries] at h
          exact Or.inl h
        · exact Or.inr h

/-- Every key after the body of processDoi is an old key or the processed
doi. -/
theorem processDoiTry_keys (cfg : Config) (cro : CrossrefResponse) (ko : Kgx3Response)
    (now : String) (c : CacheData) (doi : String) :
    ∀ k ∈ (processDoiTry cfg cro ko now c doi).state.entries.map Prod.fst,
      k ∈ c.entries.map Prod.fst ∨ k = doi := by
  intro k hk
  cases hl : lookupEntry c.entries doi with
  | some e0 =>
    cases hc : e0.classification with
    | some cl0 =>
      have he : processDoiTry cfg cro ko now c doi =
          { res := .ok (mapClassificationToBadge cl0.classification), state := c,
            netCalls := 0, classifyInvoked := false } := by
        unfold processDoiTry
        simp [hl, hc]
      rw [he] at hk
      exact Or.inl hk
    | none =>
      have he : processDoiTry cfg cro ko now c doi = classifyStage cfg ko now c doi e0 0 := by
        unfold processDoiTry
        simp [hl, hc]
      rw [he] at hk
      exact classifyStage_keys cfg ko now c doi e0 0 k hk
  | none =>
    cases hf : fetchCrossrefMetadata doi cro with
    | error err =>
      have he : processDoiTry cfg cro ko now c doi =
          { res := .error err, state := c, netCalls := 1, classifyInvoked := false } := by
        unfold processDoiTry
        simp [hl, hf]
      rw [he] at hk
      exact Or.inl hk
    | ok md =>
      have he : processDoiTry cfg cro ko now c doi =
          classifyStage cfg ko now
            (saveCache { c with entries := setEntry c.entries doi (freshEntry doi md now) } now)
            doi (freshEntry doi md now) 1 := by
        unfold processDoiTry
        simp [hl, hf]
      rw [he] at hk
      have hks := classifyStage_keys cfg ko now
        (saveCache { c with entries := setEntry c.entries doi (freshEntry doi md now) } now)
        doi (freshEntry doi md now) 1 k hk
      rcases hks with h | h
      · have hks2 := setEntry_keys c.entries doi (freshEntry doi md now) k (by simpa [saveCache] using h)
        exact hks2
      · exact Or.inr h

/-- Every key after one pipeline operation is an old key or the doi that
operation processed. -/
theorem stepOp_keys (cfg : Config) (c : CacheData) (op : PipeOp) :
    ∀ k ∈ (stepOp cfg c op).entries.map Prod.fst,
      k ∈ c.entries.map Prod.fst ∨ opDoi op = some k := by
  intro k hk
  cases op with
  | procOp cro ko now doi =>
    have hs := (processDoi_state_eq cfg cro ko now c doi).1
    simp only [stepOp, hs] at hk
    rcases processDoiTry_keys cfg cro ko now c doi k hk with h | h
    · exact Or.inl h
    · exact Or.inr (by simp [opDoi, h])
  | classifyOp ko now title pdfUrl =>
    simp only [stepOp, classify_entries] at hk
    exact Or.inl hk
  | saveOp now => exact Or.inl hk
  | statsOp => exact Or.inl hk

/-- Running lowercase-doi operations from a cache with lowercase keys keeps
every key lowercase. -/
theorem runOps_keys_lowercase (cfg : Config) : ∀ (ops : List PipeOp) (c : CacheData),
    ((c.entries.map Prod.fst).all isLowercased = true) →
    (ops.all opDoiLowercase = true) →
    (((runOps cfg c ops).entries.map Prod.fst).all isLowercased = true) := by
  intro ops
  induction ops with
  | nil => intro c h1 h2; exact h1
  | cons op t ih =>
    intro c h1 h2
    rw [List.all_cons, Bool.and_eq_true] at h2
    apply ih (stepOp cfg c op)
    · rw [List.all_eq_true] at h1 ⊢
      intro k hk
      rcases stepOp_keys cfg c op k hk with h | h
      · exact h1 k h
      · exact opDoi_lower op k h2.1 h
    · exact h2.2

/-- C9 amended: processDoi stores its doi argument verbatim; starting from
the empty cache, when every processDoi operation of the sequence receives
an already-lowercase doi (as extractDoi produces), every key of the entries
record equals its own lowercase form. -/
theorem cache_keys_lowercase (cfg : Config) (ops : List PipeOp)
    (hops : ops.all opDoiLowercase = true) :
    (((runOps cfg cacheFresh ops).entries.map Prod.fst).all isLowercased = true) :=
  runOps_keys_lowercase cfg ops cacheFresh (by decide) hops

/-- C9 amended witness: a lowercase doi processed from the empty cache
leaves only lowercase keys. -/
theorem cache_keys_lowercase_w :
    (((runOps cfgA cacheFresh [PipeOp.procOp croOkT koOk ("t") ("10.1/ab")]).entries.map
        Prod.fst).all isLowercased = true) :=
  cache_keys_lowercase cfgA [PipeOp.procOp croOkT koOk ("t") ("10.1/ab")] (by decide)

end DoiProc
